import Mathlib

/-
Verification of the Monicelli AST layer (src/src/Nodes.hpp) against its
natural-language specification. The C++ classes are shallowly embedded as
Lean structures and inductives; the supporting headers that are not among
the sources (location.hh, Pointers.hpp, Emitter.hpp) are modelled from the
specification where a claim depends on them, and each such definition is
marked `Modelled from the spec:` in its doc comment.
-/

namespace monicelli

/-- Modelled from the spec: the source-position type from location.hh (not among
the sources); an opaque line/column value (spec section 3, "Location"). -/
structure Location where
  line : Nat
  column : Nat
  deriving DecidableEq

/-- Mixin giving a node a source location (Nodes.hpp lines 57-69). The C++ class
holds one mutable `location loc` field; here the field is the whole state. -/
structure Localizable where
  loc : Location
  deriving DecidableEq

/-- Localizable::setLocation assigns the supplied location to the field
(Nodes.hpp lines 59-61: `loc = l;`). -/
def Localizable.setLocation (s : Localizable) (l : Location) : Localizable :=
  { s with loc := l }

/-- Localizable::getLocation reads the field (Nodes.hpp lines 63-65). -/
def Localizable.getLocation (s : Localizable) : Location :=
  s.loc

/-- The C++ `enum class Type` (Nodes.hpp lines 37-45); named Ty because `Type`
is reserved in Lean. -/
inductive Ty where
  | INT | CHAR | FLOAT | BOOL | DOUBLE | VOID | UNKNOWN
  deriving DecidableEq

/-- The C++ `enum class Operator` (Nodes.hpp lines 49-53). -/
inductive Operator where
  | PLUS | MINUS | TIMES | DIV | SHL | SHR | LT | GT | GTE | LTE | EQ
  deriving DecidableEq

/-- Identifier node: string payload plus its source location
(Nodes.hpp lines 102-122, class Id). -/
structure Id where
  value : String
  loc : Location

/-- Id::getValue (Nodes.hpp lines 116-118). -/
def Id.getValue (i : Id) : String :=
  i.value

/-- The free `operator==(Id const&, Id const&)` (Nodes.hpp lines 124-127):
`a.getValue() == b.getValue()`, comparing only the string payloads. -/
def Id.beq (a b : Id) : Bool :=
  a.getValue == b.getValue

/-- Model of `std::hash<std::string>`: some fixed function of the text alone. -/
def stdHashString (s : String) : Nat :=
  s.hash.toNat

/-- Modelled from the spec: Identifier hash is "by string value" (spec sections
3 and 4.4); no hash function for Id appears among the sources. -/
def Id.hash_value (i : Id) : Nat :=
  stdHashString i.getValue

/-- Expression nodes, collapsed into one inductive: the abstract class
Expression with its concrete kinds Id, Integer, Float (Nodes.hpp lines
102-163), FunctionCall in its expression role (lines 319-338) and
BinaryExpression (lines 554-579). The `long` payload of Integer is an Int,
the `double` payload of Float a Lean Float. -/
inductive Expression where
  | id (i : Id)
  | integer (value : Int)
  | float (value : Float)
  | functionCall (name : Id) (args : List Expression)
  | binaryExpression (left : Expression) (op : Operator) (right : Expression)

/-- BinaryExpression::getOperator (Nodes.hpp lines 571-573), as a partial
projection out of the collapsed Expression type: `some` exactly on the
binaryExpression shape. -/
def Expression.getOperator : Expression → Option Operator
  | .binaryExpression _ op _ => some op
  | _ => none

/-- SemiExpression (Nodes.hpp lines 84-99): a Localizable — not an Emittable —
holding one fixed operator and an owned left expression. -/
structure SemiExpression where
  op : Operator
  left : Expression

/-- SemiExpression::getOperator (Nodes.hpp lines 92-94). -/
def SemiExpression.getOperator (e : SemiExpression) : Operator :=
  e.op

/-- SemiExpression::getLeft (Nodes.hpp lines 88-90). -/
def SemiExpression.getLeft (e : SemiExpression) : Expression :=
  e.left

/-- ExpLt constructor (Nodes.hpp line 584): fixes Operator::LT. -/
def ExpLt (l r : Expression) : Expression :=
  .binaryExpression l .LT r

/-- ExpGt constructor (Nodes.hpp line 590): fixes Operator::GT. -/
def ExpGt (l r : Expression) : Expression :=
  .binaryExpression l .GT r

/-- ExpLte constructor (Nodes.hpp line 596): fixes Operator::LTE. -/
def ExpLte (l r : Expression) : Expression :=
  .binaryExpression l .LTE r

/-- ExpGte constructor (Nodes.hpp line 602): fixes Operator::GTE. -/
def ExpGte (l r : Expression) : Expression :=
  .binaryExpression l .GTE r

/-- ExpPlus constructor (Nodes.hpp line 608): fixes Operator::PLUS. -/
def ExpPlus (l r : Expression) : Expression :=
  .binaryExpression l .PLUS r

/-- ExpMinus constructor (Nodes.hpp line 615): fixes Operator::MINUS. -/
def ExpMinus (l r : Expression) : Expression :=
  .binaryExpression l .MINUS r

/-- ExpTimes constructor (Nodes.hpp line 621): fixes Operator::TIMES. -/
def ExpTimes (l r : Expression) : Expression :=
  .binaryExpression l .TIMES r

/-- ExpDiv constructor (Nodes.hpp line 627): fixes Operator::DIV. -/
def ExpDiv (l r : Expression) : Expression :=
  .binaryExpression l .DIV r

/-- ExpShl constructor (Nodes.hpp line 633): fixes Operator::SHL. -/
def ExpShl (l r : Expression) : Expression :=
  .binaryExpression l .SHL r

/-- ExpShr constructor (Nodes.hpp line 639): fixes Operator::SHR. -/
def ExpShr (l r : Expression) : Expression :=
  .binaryExpression l .SHR r

/-- SemiExpEq constructor (Nodes.hpp line 644): fixes Operator::EQ. -/
def SemiExpEq (l : Expression) : SemiExpression :=
  ⟨.EQ, l⟩

/-- SemiExpLt constructor (Nodes.hpp line 650): fixes Operator::LT. -/
def SemiExpLt (l : Expression) : SemiExpression :=
  ⟨.LT, l⟩

/-- SemiExpGt constructor (Nodes.hpp line 656): fixes Operator::GT. -/
def SemiExpGt (l : Expression) : SemiExpression :=
  ⟨.GT, l⟩

/-- SemiExpLte constructor (Nodes.hpp line 662): fixes Operator::LTE. -/
def SemiExpLte (l : Expression) : SemiExpression :=
  ⟨.LTE, l⟩

/-- SemiExpGte constructor (Nodes.hpp line 668): fixes Operator::GTE. -/
def SemiExpGte (l : Expression) : SemiExpression :=
  ⟨.GTE, l⟩

/-- SemiExpPlus constructor (Nodes.hpp line 674): fixes Operator::PLUS. -/
def SemiExpPlus (l : Expression) : SemiExpression :=
  ⟨.PLUS, l⟩

/-- SemiExpMinus constructor (Nodes.hpp line 680): fixes Operator::MINUS. -/
def SemiExpMinus (l : Expression) : SemiExpression :=
  ⟨.MINUS, l⟩

/-- SemiExpTimes constructor (Nodes.hpp line 686): fixes Operator::TIMES. -/
def SemiExpTimes (l : Expression) : SemiExpression :=
  ⟨.TIMES, l⟩

/-- SemiExpDiv constructor (Nodes.hpp line 692): fixes Operator::DIV. -/
def SemiExpDiv (l : Expression) : SemiExpression :=
  ⟨.DIV, l⟩

/-- SemiExpShl constructor (Nodes.hpp line 698): the source fixes Operator::SHR
here — `SemiExpShl(Expression *l): SemiExpression(Operator::SHR, l)`. -/
def SemiExpShl (l : Expression) : SemiExpression :=
  ⟨.SHR, l⟩

/-- SemiExpShr constructor (Nodes.hpp line 704): the source fixes Operator::SHL
here — `SemiExpShr(Expression *l): SemiExpression(Operator::SHL, l)`. -/
def SemiExpShr (l : Expression) : SemiExpression :=
  ⟨.SHL, l⟩

/-- The `maybe_return` macro (Nodes.hpp lines 32-33): dereference a possibly
null owned pointer into an optional — `if val != nullptr return *val else
return boost::none`. A nullable `Pointer<T>` is modelled as `Option T`. -/
def maybe_return {α : Type} : Option α → Option α
  | some v => some v
  | none => none

/-- Return statement node (Nodes.hpp lines 166-180): owns a possibly null
expression pointer. -/
structure Return where
  expression : Option Expression

/-- Return::getExpression (Nodes.hpp lines 174-176): `maybe_return(expression)`. -/
def Return.getExpression (r : Return) : Option Expression :=
  maybe_return r.expression

mutual

/-- Statement nodes (Nodes.hpp: Return 166, Loop 183, VarDeclaration 205,
Assignment 238, Print 260, Input 277, Abort 294, Assert 302, FunctionCall in
its statement role 319, Branch 358), one inductive mutual with the parts of
Branch. Field order follows each C++ constructor. -/
inductive Statement where
  | returnStmt (r : Return)
  | loop (body : List Statement) (condition : Expression)
  | varDeclaration (name : Id) (type : Ty) (point : Bool) (init : Option Expression)
  | assignment (name : Id) (value : Expression)
  | print (expression : Expression)
  | input (target : Id)
  | abort
  | assert (expression : Expression)
  | functionCall (name : Id) (args : List Expression)
  | branch (var : Id) (body : BranchBody)

/-- Branch::Body (Nodes.hpp lines 360-375): a list of cases plus an optional
else sequence (the `els` pointer defaults to nullptr). -/
inductive BranchBody where
  | mk (cases : List BranchCase) (els : Option (List Statement))

/-- BranchCase (Nodes.hpp lines 340-355): a SemiExpression condition fragment
and an owned statement sequence. -/
inductive BranchCase where
  | mk (condition : SemiExpression) (body : List Statement)

end

end monicelli

namespace monicelli

/-- FunArg (Nodes.hpp lines 399-419): name, type, pointer flag. -/
structure FunArg where
  name : Id
  type : Ty
  pointer : Bool

/-- FunctionPrototype (Nodes.hpp lines 422-447): name, return type, owned
argument list. -/
structure FunctionPrototype where
  name : Id
  type : Ty
  args : List FunArg

/-- FunctionPrototype::getName (Nodes.hpp lines 431-433). -/
def FunctionPrototype.getName (p : FunctionPrototype) : Id :=
  p.name

/-- FunctionPrototype::getType (Nodes.hpp lines 435-437). -/
def FunctionPrototype.getType (p : FunctionPrototype) : Ty :=
  p.type

/-- FunctionPrototype::getArgs (Nodes.hpp lines 439-441). -/
def FunctionPrototype.getArgs (p : FunctionPrototype) : List FunArg :=
  p.args

/-- The free `operator==` on FunctionPrototype (Nodes.hpp lines 449-452):
`a.getName() == b.getName()`, which is Id's operator==, so name text only. -/
def FunctionPrototype.beq (a b : FunctionPrototype) : Bool :=
  Id.beq a.getName b.getName

/-- The free `hash_value` on FunctionPrototype (Nodes.hpp lines 454-457):
`std::hash<std::string>()(e.getName().getValue())`. -/
def FunctionPrototype.hash_value (e : FunctionPrototype) : Nat :=
  stdHashString e.getName.getValue

/-- Function (Nodes.hpp lines 459-479): owns one prototype and a body. -/
structure Function where
  prototype : FunctionPrototype
  body : List Statement

/-- Module::ModuleType (Nodes.hpp lines 484-486). -/
inductive ModuleType where
  | SYSTEM | USER
  deriving DecidableEq, BEq

/-- Module (Nodes.hpp lines 482-505): plain name string and a kind. -/
structure Module where
  name : String
  type : ModuleType

/-- Module::getName (Nodes.hpp lines 494-496). -/
def Module.getName (m : Module) : String :=
  m.name

/-- Module::getType (Nodes.hpp lines 498-500). -/
def Module.getType (m : Module) : ModuleType :=
  m.type

/-- The free `operator==` on Module (Nodes.hpp lines 507-510):
`(a.getName() == b.getName()) && (a.getType() == b.getType())`. -/
def Module.beq (a b : Module) : Bool :=
  (a.getName == b.getName) && (a.getType == b.getType)

/-- The implicit conversion of the unscoped enum ModuleType to bool used by
`std::hash<bool>()(e.getType())` in Nodes.hpp line 514: SYSTEM is 0 (false),
USER is 1 (true). -/
def ModuleType.toBool : ModuleType → Bool
  | .SYSTEM => false
  | .USER => true

/-- Model of `std::hash<bool>`: libstdc++ hashes a bool to its value. -/
def stdHashBool (b : Bool) : Nat :=
  if b then 1 else 0

/-- The free `hash_value` on Module (Nodes.hpp lines 512-515):
`std::hash<std::string>()(e.getName()) ^ std::hash<bool>()(e.getType())`. -/
def Module.hash_value (e : Module) : Nat :=
  stdHashString e.getName ^^^ stdHashBool e.getType.toBool

/-- Modelled from the spec: `PointerSet` (Pointers.hpp is not among the
sources) is the "owned deduplicated set" of spec section 3 — duplicates
collapsed by the caller-supplied equality and hash, here Module's operator==
and hash_value. Modelled as a list whose insert is a no-op when an element
equal to the new one is already present. -/
def insertModule (ms : List Module) (m : Module) : List Module :=
  if ms.any (fun x => Module.beq x m) then ms else ms ++ [m]

/-- Program (Nodes.hpp lines 517-551): an optional main, an ordered function
list and a deduplicated module set. -/
structure Program where
  main : Option Function
  functions : List Function
  modules : List Module

/-- A default-constructed Program: null main, empty containers. -/
def Program.empty : Program :=
  ⟨none, [], []⟩

/-- Program::setMain (Nodes.hpp lines 523-525): replaces the main slot. -/
def Program.setMain (p : Program) (m : Function) : Program :=
  { p with main := some m }

/-- Program::addFunction (Nodes.hpp lines 527-529): `functions.push_back(f)`. -/
def Program.addFunction (p : Program) (f : Function) : Program :=
  { p with functions := p.functions ++ [f] }

/-- Program::addModule (Nodes.hpp lines 531-533): `modules.insert(m)`. -/
def Program.addModule (p : Program) (m : Module) : Program :=
  { p with modules := insertModule p.modules m }

/-- Program::getMain (Nodes.hpp lines 535-537): `maybe_return(main)`. -/
def Program.getMain (p : Program) : Option Function :=
  maybe_return p.main

/-- Program::getFunctions (Nodes.hpp lines 539-541). -/
def Program.getFunctions (p : Program) : List Function :=
  p.functions

/-- Program::getModules (Nodes.hpp lines 543-545). -/
def Program.getModules (p : Program) : List Module :=
  p.modules

/-- Number of modules in a list equal (by Module's operator==) to a given
key module. -/
def countEq (ms : List Module) (m : Module) : Nat :=
  (ms.filter (fun x => Module.beq x m)).length

/-- The concrete node kinds enumerated by the specification's backend
capability set (spec section 4.2): the simple expressions, the collapsed
binary and partial (semi) families, every statement kind, and the structural
nodes. -/
inductive NodeKind where
  | id | integer | float | binaryExpression | semiExpression
  | returnStmt | loop | varDeclaration | assignment | print
  | input | abort | assert | functionCall | branch
  | functionPrototype | function | module | program
  deriving DecidableEq

/-- Whether the class for a node kind declares `virtual bool emit(Emitter*)`,
transcribed from Nodes.hpp: Id 112, Integer 136, Float 153, BinaryExpression
559, Return 170, Loop 187, VarDeclaration 210, Assignment 242, Print 264,
Input 281, Abort 296, Assert 306, FunctionCall 323, Branch 379,
FunctionPrototype 427, Function 464, Module 490, Program 519. SemiExpression
(lines 84-99) extends only Localizable and declares no emit. -/
def hasEmitMethod : NodeKind → Bool
  | .id => true
  | .integer => true
  | .float => true
  | .binaryExpression => true
  | .semiExpression => false
  | .returnStmt => true
  | .loop => true
  | .varDeclaration => true
  | .assignment => true
  | .print => true
  | .input => true
  | .abort => true
  | .assert => true
  | .functionCall => true
  | .branch => true
  | .functionPrototype => true
  | .function => true
  | .module => true
  | .program => true

/-- Modelled from the spec: the backend capability set has "one entry point
per concrete node kind enumerated in section 3" (spec section 4.2);
Emitter.hpp is not among the sources. -/
def emitterHasEntry : NodeKind → Bool :=
  fun _ => true

/-- Modelled from the spec: emission of a statement sequence stops at the
first failing statement and propagates the failure (spec sections 4.2 and 8).
Returns the overall success signal together with the trace of statements on
which emission was invoked, in order. -/
def emitStatements (f : Statement → Bool) : List Statement → Bool × List Statement
  | [] => (true, [])
  | s :: rest =>
    if f s then
      let r := emitStatements f rest
      (r.1, s :: r.2)
    else (false, [s])

/-- Modelled from the spec: a binary expression's emission evaluates its left
child first and short-circuits on failure, never invoking the right child
(spec sections 4.2 and 8). Returns the binary expression's own success signal
together with the trace of children on which emission was invoked. -/
def emitBinaryChildren (f : Expression → Bool) (left right : Expression) : Bool × List Expression :=
  if f left then
    if f right then (true, [left, right]) else (false, [left, right])
  else (false, [left])

end monicelli

namespace monicelli

/-- Helper: the derived boolean equality on ModuleType agrees with propositional
equality. -/
theorem moduleTypeBeq_iff (t u : ModuleType) : (t == u) = true ↔ t = u := by
  cases t <;> cases u <;> decide

/-- Helper: Module's operator== holds exactly when name and kind agree. -/
theorem Module.beq_iff (a b : Module) :
    Module.beq a b = true ↔ a.getName = b.getName ∧ a.getType = b.getType := by
  simp [Module.beq, Bool.and_eq_true, beq_iff_eq, moduleTypeBeq_iff]

/-- Helper: Module's operator== is reflexive. -/
theorem Module.beq_self (a : Module) : Module.beq a a = true := by
  simp [Module.beq_iff]

/-- Helper: comparing against either of two modules with the same (name, kind)
key gives the same answer. -/
theorem Module.beq_congr_key (m1 m2 x : Module)
    (hn : m1.getName = m2.getName) (ht : m1.getType = m2.getType) :
    Module.beq x m2 = Module.beq x m1 := by
  unfold Module.beq
  rw [hn, ht]

/-- Helper: two modules each equal to a third are equal to each other. -/
theorem Module.beq_trans_key (a b m : Module)
    (ha : Module.beq a m = true) (hb : Module.beq b m = true) :
    Module.beq a b = true := by
  rw [Module.beq_iff] at ha hb ⊢
  exact ⟨ha.1.trans hb.1.symm, ha.2.trans hb.2.symm⟩

/-- Helper: in a list whose elements are pairwise unequal by Module's
operator==, at most one element matches any key module. -/
theorem countEq_le_one (m : Module) :
    ∀ (ms : List Module),
      List.Pairwise (fun a b => Module.beq a b = false) ms →
      (ms.filter (fun x => Module.beq x m)).length ≤ 1 := by
  intro ms
  induction ms with
  | nil => intro _; simp
  | cons a t ih =>
    intro hp
    rcases List.pairwise_cons.mp hp with ⟨ha, ht⟩
    by_cases hPa : Module.beq a m = true
    · have hnil : t.filter (fun x => Module.beq x m) = [] := by
        rw [List.filter_eq_nil_iff]
        intro b hb hPb
        exact absurd (Module.beq_trans_key a b m hPa hPb) (by simp [ha b hb])
      simp [List.filter_cons, hPa, hnil]
    · simp only [List.filter_cons, hPa, if_false]
      exact ih ht

/-- Helper: a successful any-search guarantees at least one filtered element. -/
theorem countEq_pos_of_any (m : Module) (ms : List Module)
    (h : ms.any (fun x => Module.beq x m) = true) :
    1 ≤ (ms.filter (fun x => Module.beq x m)).length := by
  rcases List.any_eq_true.mp h with ⟨x, hx, hPx⟩
  exact List.length_pos_of_mem (List.mem_filter.mpr ⟨hx, hPx⟩)

/-- C1: FunctionPrototype equality holds exactly when the names carry equal
text, irrespective of return type and argument list, and the hash is the
string hash of the name's text alone, so equal names give equal hashes. -/
theorem functionPrototype_eq_hash_by_name :
    ∀ (a b : FunctionPrototype),
      (FunctionPrototype.beq a b = true ↔ a.getName.getValue = b.getName.getValue) ∧
      (a.getName.getValue = b.getName.getValue →
        FunctionPrototype.hash_value a = FunctionPrototype.hash_value b) ∧
      FunctionPrototype.hash_value a = stdHashString a.getName.getValue := by
  intro a b
  refine ⟨?_, ?_, rfl⟩
  · simp [FunctionPrototype.beq, Id.beq, beq_iff_eq]
  · intro h
    simp [FunctionPrototype.hash_value, h]

/-- C1 witness: two prototypes named "f" with different return types and
argument lists are equal and hash alike. -/
theorem functionPrototype_eq_hash_by_name_witness :
    FunctionPrototype.beq
        ⟨⟨"f", ⟨1, 1⟩⟩, Ty.INT, []⟩
        ⟨⟨"f", ⟨2, 2⟩⟩, Ty.VOID, [⟨⟨"x", ⟨3, 3⟩⟩, Ty.INT, false⟩]⟩ = true ∧
    FunctionPrototype.hash_value ⟨⟨"f", ⟨1, 1⟩⟩, Ty.INT, []⟩ =
      FunctionPrototype.hash_value ⟨⟨"f", ⟨2, 2⟩⟩, Ty.VOID, [⟨⟨"x", ⟨3, 3⟩⟩, Ty.INT, false⟩]⟩ :=
  ⟨(functionPrototype_eq_hash_by_name
      ⟨⟨"f", ⟨1, 1⟩⟩, Ty.INT, []⟩
      ⟨⟨"f", ⟨2, 2⟩⟩, Ty.VOID, [⟨⟨"x", ⟨3, 3⟩⟩, Ty.INT, false⟩]⟩).1.mpr rfl,
   (functionPrototype_eq_hash_by_name
      ⟨⟨"f", ⟨1, 1⟩⟩, Ty.INT, []⟩
      ⟨⟨"f", ⟨2, 2⟩⟩, Ty.VOID, [⟨⟨"x", ⟨3, 3⟩⟩, Ty.INT, false⟩]⟩).2.1 rfl⟩

/-- C2: the partial (semi) shift constructors carry transposed operator
constants — SemiExpShl fixes SHR and SemiExpShr fixes SHL — while the full
binary shift constructors ExpShl and ExpShr fix SHL and SHR respectively. -/
theorem semiExp_shift_operators_transposed :
    ∀ (l r : Expression),
      (SemiExpShl l).getOperator = Operator.SHR ∧
      (SemiExpShr l).getOperator = Operator.SHL ∧
      (ExpShl l r).getOperator = some Operator.SHL ∧
      (ExpShr l r).getOperator = some Operator.SHR := by
  intro l r
  exact ⟨rfl, rfl, rfl, rfl⟩

/-- C3: Module equality holds exactly when both name and kind agree, equal
(name, kind) pairs give equal hashes, and equal names with different kinds
compare unequal. -/
theorem module_eq_hash_by_name_and_kind :
    ∀ (a b : Module),
      (Module.beq a b = true ↔ a.getName = b.getName ∧ a.getType = b.getType) ∧
      (a.getName = b.getName → a.getType = b.getType →
        Module.hash_value a = Module.hash_value b) ∧
      (a.getName = b.getName → a.getType ≠ b.getType → Module.beq a b = false) := by
  intro a b
  refine ⟨Module.beq_iff a b, ?_, ?_⟩
  · intro h1 h2
    simp [Module.hash_value, h1, h2]
  · intro h1 h2
    cases h : Module.beq a b with
    | false => rfl
    | true => exact absurd ((Module.beq_iff a b).mp h).2 h2

/-- C3 witness: modules named "m" of kinds SYSTEM and USER are unequal, and
two (name, kind)-identical modules hash alike. -/
theorem module_eq_hash_by_name_and_kind_witness :
    Module.beq ⟨"m", ModuleType.SYSTEM⟩ ⟨"m", ModuleType.USER⟩ = false ∧
    Module.hash_value ⟨"m", ModuleType.SYSTEM⟩ = Module.hash_value ⟨"m", ModuleType.SYSTEM⟩ :=
  ⟨(module_eq_hash_by_name_and_kind ⟨"m", ModuleType.SYSTEM⟩ ⟨"m", ModuleType.USER⟩).2.2
      rfl (by decide),
   (module_eq_hash_by_name_and_kind ⟨"m", ModuleType.SYSTEM⟩ ⟨"m", ModuleType.SYSTEM⟩).2.1
      rfl rfl⟩

/-- C4: identifiers with equal text are equal under operator== and hash alike,
whatever their locations; both are functions of the string payload only. -/
theorem identifier_eq_hash_by_text :
    ∀ (a b : Id), a.getValue = b.getValue →
      Id.beq a b = true ∧ Id.hash_value a = Id.hash_value b := by
  intro a b h
  constructor
  · simp [Id.beq, h]
  · simp [Id.hash_value, h]

/-- C4 witness: two identifiers "x" at distinct locations are equal and hash
alike. -/
theorem identifier_eq_hash_by_text_witness :
    Id.beq ⟨"x", ⟨1, 1⟩⟩ ⟨"x", ⟨7, 9⟩⟩ = true ∧
    Id.hash_value ⟨"x", ⟨1, 1⟩⟩ = Id.hash_value ⟨"x", ⟨7, 9⟩⟩ :=
  identifier_eq_hash_by_text ⟨"x", ⟨1, 1⟩⟩ ⟨"x", ⟨7, 9⟩⟩ rfl

/-- C6 counterexample: setting the location a second time is neither disallowed
nor a no-op — after setting (1,2) and then (3,4) the observed location is not
the first-set value (1,2). -/
theorem setLocation_overwrite_counterexample :
    Localizable.getLocation
        (Localizable.setLocation (Localizable.setLocation ⟨⟨0, 0⟩⟩ ⟨1, 2⟩) ⟨3, 4⟩) ≠ ⟨1, 2⟩ := by
  decide

/-- C6 amended: reading the location after a set returns the supplied value,
and a second set overwrites it — the observed location equals the most
recently set value, not the first-set one. -/
theorem setLocation_last_write_wins :
    ∀ (s : Localizable) (l1 l2 : Location),
      (s.setLocation l1).getLocation = l1 ∧
      ((s.setLocation l1).setLocation l2).getLocation = l2 := by
  intro s l1 l2
  exact ⟨rfl, rfl⟩

/-- C7 counterexample: the partial (semi) expression kind does not expose the
emit operation — SemiExpression extends only Localizable in the source. -/
theorem semiExpression_no_emit_counterexample :
    hasEmitMethod NodeKind.semiExpression = false := rfl

/-- C7 amended: the backend capability set (modelled from the spec) has an
entry point for every enumerated kind, and every enumerated kind except the
partial (semi) expression family exposes the emit operation; semiExpression
is exactly the kind without one. -/
theorem emit_exposure_except_semi :
    ∀ (k : NodeKind),
      emitterHasEntry k = true ∧
      (hasEmitMethod k = false ↔ k = NodeKind.semiExpression) := by
  intro k
  cases k <;> exact ⟨rfl, by decide⟩

/-- C9: a Return node's retrieved expression is exactly the constructed one —
none precisely when constructed with no expression, and a present expression
is never observed as absent. -/
theorem return_expression_roundtrip :
    ∀ (oe : Option Expression) (e : Expression),
      (Return.mk oe).getExpression = oe ∧
      ((Return.mk (some e)).getExpression).isSome = true ∧
      (Return.mk none).getExpression = none := by
  intro oe e
  refine ⟨?_, rfl, rfl⟩
  cases oe <;> rfl

/-- C10: each Program mutator touches only its own component — setMain
replaces the main slot (later sets overriding earlier ones) leaving functions
and modules unchanged, addFunction appends at the end leaving main and
modules unchanged, and addModule leaves main and functions unchanged. -/
theorem program_mutators_frame :
    ∀ (p : Program) (m m1 m2 f : Function) (mo : Module),
      (p.setMain m).getFunctions = p.getFunctions ∧
      (p.setMain m).getModules = p.getModules ∧
      (p.setMain m).getMain = some m ∧
      ((p.setMain m1).setMain m2).getMain = some m2 ∧
      (p.addFunction f).getFunctions = p.getFunctions ++ [f] ∧
      (p.addFunction f).getMain = p.getMain ∧
      (p.addFunction f).getModules = p.getModules ∧
      (p.addModule mo).getMain = p.getMain ∧
      (p.addModule mo).getFunctions = p.getFunctions := by
  intro p m m1 m2 f mo
  exact ⟨rfl, rfl, rfl, rfl, rfl, rfl, rfl, rfl, rfl⟩

end monicelli

namespace monicelli

/-- Helper: inserting a module equal to one already present is a no-op on the
modelled set. -/
theorem insertModule_mem_noop (ms : List Module) (m : Module)
    (h : ms.any (fun x => Module.beq x m) = true) : insertModule ms m = ms := by
  simp [insertModule, h]

/-- Helper: after inserting m, some element equal to m is present. -/
theorem insertModule_any_self (ms : List Module) (m : Module) :
    (insertModule ms m).any (fun x => Module.beq x m) = true := by
  unfold insertModule
  by_cases h : ms.any (fun x => Module.beq x m) = true
  · simp [h]
  · rw [if_neg h, List.any_append]
    simp [Module.beq_self]

/-- C5: on a Program whose module set holds pairwise-unequal modules (the set
invariant PointerSet maintains), adding two modules with identical (name,
kind) leaves exactly one module with that key; the second add is a no-op, and
in general adding a module equal to one already present leaves the set's
contents unchanged. -/
theorem program_addModule_dedup :
    ∀ (p : Program) (m1 m2 : Module),
      m1.getName = m2.getName → m1.getType = m2.getType →
      List.Pairwise (fun a b => Module.beq a b = false) p.getModules →
      countEq ((p.addModule m1).addModule m2).getModules m1 = 1 ∧
      ((p.addModule m1).addModule m2).getModules = (p.addModule m1).getModules ∧
      (∀ (q : Program) (m : Module),
        q.getModules.any (fun x => Module.beq x m) = true →
        (q.addModule m).getModules = q.getModules) := by
  intro p m1 m2 hn ht hp
  have hcong : (fun x => Module.beq x m2) = (fun x => Module.beq x m1) :=
    funext (fun x => Module.beq_congr_key m1 m2 x hn ht)
  have hnoop : ∀ (q : Program) (m : Module),
      q.getModules.any (fun x => Module.beq x m) = true →
      (q.addModule m).getModules = q.getModules := by
    intro q m hq
    show insertModule q.modules m = q.modules
    exact insertModule_mem_noop q.modules m hq
  have hmods2 : ((p.addModule m1).addModule m2).getModules = (p.addModule m1).getModules := by
    show insertModule (insertModule p.modules m1) m2 = insertModule p.modules m1
    apply insertModule_mem_noop
    rw [hcong]
    exact insertModule_any_self p.modules m1
  refine ⟨?_, hmods2, hnoop⟩
  rw [hmods2]
  show countEq (insertModule p.modules m1) m1 = 1
  unfold insertModule countEq
  by_cases h : p.modules.any (fun x => Module.beq x m1) = true
  · rw [if_pos h]
    exact Nat.le_antisymm (countEq_le_one m1 p.modules hp) (countEq_pos_of_any m1 p.modules h)
  · rw [if_neg h]
    have hnil : p.modules.filter (fun x => Module.beq x m1) = [] := by
      rw [List.filter_eq_nil_iff]
      intro b hb hPb
      have hx : p.modules.any (fun x => Module.beq x m1) = true :=
        List.any_eq_true.mpr ⟨b, hb, hPb⟩
      exact h hx
    rw [List.filter_append, hnil]
    simp [Module.beq_self]

/-- C5 witness: adding the SYSTEM module "io" twice to an empty Program leaves
exactly one such module, the second add being a no-op; adding a module equal
to one already in the set leaves the contents unchanged. -/
theorem program_addModule_dedup_witness :
    countEq ((Program.empty.addModule ⟨"io", ModuleType.SYSTEM⟩).addModule
        ⟨"io", ModuleType.SYSTEM⟩).getModules ⟨"io", ModuleType.SYSTEM⟩ = 1 ∧
    ((Program.empty.addModule ⟨"io", ModuleType.SYSTEM⟩).addModule
        ⟨"io", ModuleType.SYSTEM⟩).getModules
      = (Program.empty.addModule ⟨"io", ModuleType.SYSTEM⟩).getModules ∧
    ((⟨none, [], [⟨"a", ModuleType.USER⟩]⟩ : Program).addModule
        ⟨"a", ModuleType.USER⟩).getModules
      = (⟨none, [], [⟨"a", ModuleType.USER⟩]⟩ : Program).getModules := by
  have h := program_addModule_dedup Program.empty
      ⟨"io", ModuleType.SYSTEM⟩ ⟨"io", ModuleType.SYSTEM⟩ rfl rfl List.Pairwise.nil
  exact ⟨h.1, h.2.1,
    h.2.2 ⟨none, [], [⟨"a", ModuleType.USER⟩]⟩ ⟨"a", ModuleType.USER⟩ (by decide)⟩

/-- C8: emission propagates failure with stop-on-first-failure semantics —
when every statement before s succeeds and s fails, emitting the sequence
invokes emission exactly on the statements up to and including s (no later
statement) and reports failure; and a binary expression whose left child
fails never invokes emission on the right child and itself reports failure. -/
theorem emit_stops_at_first_failure :
    (∀ (f : Statement → Bool) (pre : List Statement) (s : Statement) (post : List Statement),
        (∀ t ∈ pre, f t = true) → f s = false →
        emitStatements f (pre ++ s :: post) = (false, pre ++ [s])) ∧
    (∀ (g : Expression → Bool) (l r : Expression),
        g l = false → emitBinaryChildren g l r = (false, [l])) := by
  constructor
  · intro f pre
    induction pre with
    | nil =>
      intro s post _ hs
      simp [emitStatements, hs]
    | cons a t ih =>
      intro s post h hs
      have ha : f a = true := h a (List.mem_cons_self a t)
      have ht : ∀ x ∈ t, f x = true := fun x hx => h x (List.mem_cons_of_mem a hx)
      simp [emitStatements, ha, ih s post ht hs]
  · intro g l r hl
    simp [emitBinaryChildren, hl]

/-- C8 witness: in the sequence [print 1, abort, input x] under a backend that
fails exactly on abort, emission is invoked on print 1 and abort only and the
sequence fails; a binary expression over a failing left child 0 invokes only
the left child and fails. -/
theorem emit_stops_at_first_failure_witness :
    emitStatements (fun s => match s with | .abort => false | _ => true)
        ([Statement.print (Expression.integer 1)] ++
          Statement.abort :: [Statement.input ⟨"x", ⟨1, 1⟩⟩])
      = (false, [Statement.print (Expression.integer 1)] ++ [Statement.abort]) ∧
    emitBinaryChildren (fun e => match e with | .integer 0 => false | _ => true)
        (Expression.integer 0) (Expression.integer 1)
      = (false, [Expression.integer 0]) := by
  constructor
  · exact emit_stops_at_first_failure.1
      (fun s => match s with | .abort => false | _ => true)
      [Statement.print (Expression.integer 1)]
      Statement.abort
      [Statement.input ⟨"x", ⟨1, 1⟩⟩]
      (by intro t htm; rw [List.mem_singleton] at htm; subst htm; rfl)
      rfl
  · exact emit_stops_at_first_failure.2
      (fun e => match e with | .integer 0 => false | _ => true)
      (Expression.integer 0) (Expression.integer 1) (by decide)

end monicelli
